import Mathlib

/-!
Shallow embedding of the decommission workflow of `src/s3_versioned_bucket.py`
(an Ansible module managing versioned S3 buckets).  The store (S3) is modelled
as an association list of buckets; each bucket carries its versioning mode,
its list of object-version records (data versions and delete markers) and a
separate catalog of plain objects.  Every S3 client call issued by the module
is recorded in a trace, and module failures (module.fail_json, uncaught
Python exceptions) are modelled by an explicit error type.
-/

namespace S3VersionedBucket

/-- Bucket-level versioning switch: the `Status` field of
`get_bucket_versioning` is absent (`Unset`), `Enabled`, or `Suspended`. -/
inductive VersioningMode
  | Unset
  | Enabled
  | Suspended
deriving DecidableEq

/-- One record per distinct (key, versionId) pair in the version-aware
listing; `isDeleteMarker` distinguishes delete markers from data versions. -/
structure ObjectVersionRecord where
  key : String
  versionId : String
  isDeleteMarker : Bool
deriving DecidableEq

/-- A bucket: versioning mode, version-aware catalog, plain-object catalog. -/
structure Bucket where
  versioning : VersioningMode
  versions : List ObjectVersionRecord
  plainObjects : List String
deriving DecidableEq

/-- The object store: named buckets. -/
structure Store where
  buckets : List (String × Bucket)
deriving DecidableEq

/-- Association-list lookup by bucket name. -/
def lookupBucket : List (String × Bucket) → String → Option Bucket
  | [], _ => none
  | (k, b) :: rest, n => if k = n then some b else lookupBucket rest n

/-- Find the bucket named `n` in the store. -/
def Store.find (st : Store) (n : String) : Option Bucket :=
  lookupBucket st.buckets n

/-- Map `f` over the bucket named `n`, leaving other buckets unchanged. -/
def updateBucketList (f : Bucket → Bucket) : List (String × Bucket) → String → List (String × Bucket)
  | [], _ => []
  | (k, b) :: rest, n =>
    if k = n then (k, f b) :: updateBucketList f rest n
    else (k, b) :: updateBucketList f rest n

/-- Update the bucket named `n` in the store with `f`. -/
def Store.updateBucket (st : Store) (n : String) (f : Bucket → Bucket) : Store :=
  ⟨updateBucketList f st.buckets n⟩

/-- Remove every entry named `n`. -/
def eraseBucketList : List (String × Bucket) → String → List (String × Bucket)
  | [], _ => []
  | (k, b) :: rest, n =>
    if k = n then eraseBucketList rest n else (k, b) :: eraseBucketList rest n

/-- Remove the bucket named `n` from the store. -/
def Store.erase (st : Store) (n : String) : Store :=
  ⟨eraseBucketList st.buckets n⟩

/-- The `Status` field returned by `get_bucket_versioning`
(`versioning_status.get("Status")` in the source: `none` when unset). -/
def VersioningMode.statusField : VersioningMode → Option String
  | .Unset => none
  | .Enabled => some "Enabled"
  | .Suspended => some "Suspended"

/-- `Status` field of bucket `n`, as the module reads it. -/
def Store.statusOf (st : Store) (n : String) : Option String :=
  (st.find n).bind fun b => b.versioning.statusField

/-- Interpretation of the `Status` string sent by `put_bucket_versioning`
(the module only ever sends "Suspended"). -/
def parseVersioningStatus (s : String) : VersioningMode :=
  if s = "Enabled" then .Enabled
  else if s = "Suspended" then .Suspended
  else .Unset

/-- Effect of `put_bucket_versioning(Bucket=n, VersioningConfiguration=...)`. -/
def Store.setVersioning (st : Store) (n s : String) : Store :=
  st.updateBucket n fun b => { b with versioning := parseVersioningStatus s }

/-- Effect of `delete_object(Bucket=n, Key=key, VersionId=vid)`: the matching
(key, versionId) record disappears from the version catalog; deleting an
absent record is a no-op (idempotent delete). -/
def Store.deleteVersion (st : Store) (n key vid : String) : Store :=
  st.updateBucket n fun b =>
    { b with versions := b.versions.filter fun r => !(r.key == key && r.versionId == vid) }

/-- One trace entry per S3 client call issued by the module. -/
inductive StoreCall
  | listBuckets (bucket : String)
  | getBucketVersioning (bucket : String)
  | putBucketVersioning (bucket : String) (status : String)
  | listObjectVersions (bucket : String)
  | deleteObject (bucket : String) (key : String) (versionId : Option String)
  | listObjectsV2 (bucket : String)
  | deleteBucket (bucket : String)
  | waitBucketNotExists (bucket : String)
deriving DecidableEq

/-- How a run of the module terminates abnormally: `failJson` and
`failJsonAws` model `module.fail_json` / `module.fail_json_aws` (the latter
keeps the error code of the underlying ClientError), `uncaught` models a
Python exception escaping the module (e.g. UnboundLocalError, NameError). -/
inductive Failure
  | failJson (msg : String)
  | failJsonAws (msg : String) (errorCode : String)
  | uncaught (exc : String)
deriving DecidableEq

/-- `bucket_exists` (source lines 63-65): list all buckets and test whether
any name equals `n`. -/
def bucket_exists (st : Store) (n : String) : Bool :=
  st.buckets.any fun p => p.1 == n

/-- `get_bucket_versioning` (source lines 68-70): read the `Status` field. -/
def get_bucket_versioning (st : Store) (n : String) : Option String :=
  st.statusOf n

/-- `put_bucket_versioning` (source lines 72-74). -/
def put_bucket_versioning (st : Store) (n s : String) : Store :=
  st.setVersioning n s

/-- Response of the raw `delete_bucket` client call: S3 rejects the call with
`NoSuchBucket` when the bucket is absent and with `BucketNotEmpty` when it
still holds any version record or plain object; otherwise it succeeds. -/
inductive DeleteBucketResponse
  | ok
  | clientError (code : String)
deriving DecidableEq

/-- `delete_bucket` (source lines 88-98): a `NoSuchBucket` ClientError is
swallowed (treated as success); any other ClientError is re-raised. -/
def delete_bucket (resp : DeleteBucketResponse) : Except String Unit :=
  match resp with
  | .ok => .ok ()
  | .clientError code => if code = "NoSuchBucket" then .ok () else .error code

/-- The store-side behaviour of the raw delete-bucket call. -/
def rawDeleteBucketResponse (st : Store) (n : String) : DeleteBucketResponse :=
  match st.find n with
  | none => .clientError "NoSuchBucket"
  | some b =>
    if b.versions.isEmpty && b.plainObjects.isEmpty then .ok
    else .clientError "BucketNotEmpty"

/-- Store state after the raw delete-bucket call (removed only on success). -/
def applyDeleteBucket (st : Store) (n : String) : Store :=
  match rawDeleteBucketResponse st n with
  | .ok => st.erase n
  | .clientError _ => st

deriving instance DecidableEq for Except

/-- Outcome of `wait_versioning_is_applied`: its result, the number of
`get_bucket_versioning` reads it issued, and the total `time.sleep` units. -/
structure WaitOutcome where
  result : Except Failure (Option String)
  reads : Nat
  slept : Nat
deriving DecidableEq

/-- The polling loop of `wait_versioning_is_applied` (source lines 76-86):
attempt `i` reads observation `obs i` (the `Status` field, or a ClientError
code); a failed read aborts via `fail_json_aws`; a read that does not show
`required` sleeps 5 time-units and retries; exhausting the fuel aborts via
`fail_json` with the timeout message. -/
def waitFrom (obs : Nat → Except String (Option String)) (required : String) :
    Nat → Nat → WaitOutcome
  | i, 0 => ⟨.error (.failJson "Bucket versioning failed to apply in the excepted time"), i, 5 * i⟩
  | i, fuel + 1 =>
    match obs i with
    | .error code =>
      ⟨.error (.failJsonAws "Failed to get updated versioning for bucket" code), i + 1, 5 * i⟩
    | .ok status =>
      if status = some required then ⟨.ok status, i + 1, 5 * i⟩
      else waitFrom obs required (i + 1) fuel

/-- `wait_versioning_is_applied` (source lines 76-86): `for dummy in
range(0, 12)`, read versioning, return on match, sleep 5 otherwise, and
fail after 12 unsuccessful attempts. -/
def wait_versioning_is_applied (obs : Nat → Except String (Option String))
    (required : String) : WaitOutcome :=
  waitFrom obs required 0 12

/-- One page of the `list_object_versions` paginator: its `DeleteMarkers`
entries and its `Versions` entries. -/
structure VersionPage where
  deleteMarkers : List ObjectVersionRecord
  versions : List ObjectVersionRecord
deriving DecidableEq

/-- Records of a page in deletion order: the source loops over the page's
`DeleteMarkers` first, then its `Versions` (source lines 137-150). -/
def pageRecords (p : VersionPage) : List ObjectVersionRecord :=
  p.deleteMarkers ++ p.versions

/-- All records of the paginated listing, in deletion order. -/
def purgeRecords (pages : List VersionPage) : List ObjectVersionRecord :=
  (pages.map pageRecords).flatten

/-- Trace of one page of the purge loop: the page fetch, then one
version-aware `delete_object` per record of the page. -/
def pageCalls (n : String) (p : VersionPage) : List StoreCall :=
  StoreCall.listObjectVersions n ::
    (pageRecords p).map fun r => StoreCall.deleteObject n r.key (some r.versionId)

/-- Trace of the whole version purge loop (source lines 134-150). -/
def purge_version_pages_calls (n : String) (pages : List VersionPage) : List StoreCall :=
  (pages.map (pageCalls n)).flatten

/-- Store state after the purge loop: every listed record is deleted with a
version-aware `delete_object`. -/
def applyPurge (st : Store) (n : String) (pages : List VersionPage) : Store :=
  (purgeRecords pages).foldl (fun s r => s.deleteVersion n r.key r.versionId) st

/-- The plain-object fallback sweep (source lines 152-159).  Each page fetch
of the `list_objects_v2` paginator is traced; a page with a non-empty
`Contents` list makes the loop body execute
`delete_object(Bucket=bucket_name, ...)`, where `bucket_name` is an
undefined local name, so Python raises NameError before any request is
issued; pages without contents are skipped. -/
def plain_sweep (n : String) : List (List String) → Except Failure Unit × List StoreCall
  | [] => (.ok (), [])
  | page :: rest =>
    if page.isEmpty then
      ((plain_sweep n rest).1, StoreCall.listObjectsV2 n :: (plain_sweep n rest).2)
    else
      (.error (.uncaught "NameError"), [StoreCall.listObjectsV2 n])

/-- The externally observable outcome of one `destroy_bucket` run: the module
result (`.ok changed` from `exit_json`, or a `Failure`), the final store
state, and the trace of S3 calls issued. -/
structure RunOutcome where
  result : Except Failure Bool
  store : Store
  calls : List StoreCall
deriving DecidableEq

/-- Final step of `destroy_bucket` (source lines 161-169): call
`delete_bucket`, then the `bucket_not_exists` waiter; a ClientError escaping
`delete_bucket` is reported via `fail_json_aws` with message
"Failed to delete bucket". -/
def delete_bucket_step (st : Store) (n : String) (acc : List StoreCall) : RunOutcome :=
  match delete_bucket (rawDeleteBucketResponse st n) with
  | .ok _ =>
    ⟨.ok true, applyDeleteBucket st n,
      acc ++ [StoreCall.deleteBucket n, StoreCall.waitBucketNotExists n]⟩
  | .error code =>
    ⟨.error (.failJsonAws "Failed to delete bucket" code), st,
      acc ++ [StoreCall.deleteBucket n]⟩

/-- Plain-object sweep followed by the delete step (source lines 152-169). -/
def sweep_and_delete (st2 : Store) (n : String) (pp : List (List String))
    (acc : List StoreCall) : RunOutcome :=
  match (plain_sweep n pp).1 with
  | .error e => ⟨.error e, st2, acc ++ (plain_sweep n pp).2⟩
  | .ok _ => delete_bucket_step st2 n (acc ++ (plain_sweep n pp).2)

/-- Version purge loop followed by the sweep and delete (source 134-169). -/
def purge_then_delete (st1 : Store) (n : String) (pages : List VersionPage)
    (pp : List (List String)) (acc : List StoreCall) : RunOutcome :=
  sweep_and_delete (applyPurge st1 n pages) n pp (acc ++ purge_version_pages_calls n pages)

/-- `wait_versioning_is_applied` call of the force branch (source line 132)
followed by the purge (the wait reads the store state `st1` left by
`put_bucket_versioning`, which in this deterministic store model is already
converged). -/
def wait_then_purge (st1 : Store) (n : String) (pages : List VersionPage)
    (pp : List (List String)) (acc : List StoreCall) : RunOutcome :=
  match (wait_versioning_is_applied (fun _ => .ok (st1.statusOf n)) "Suspended").result with
  | .error e =>
    ⟨.error e, st1,
      acc ++ List.replicate (wait_versioning_is_applied (fun _ => .ok (st1.statusOf n)) "Suspended").reads
        (StoreCall.getBucketVersioning n)⟩
  | .ok _ =>
    purge_then_delete st1 n pages pp
      (acc ++ List.replicate (wait_versioning_is_applied (fun _ => .ok (st1.statusOf n)) "Suspended").reads
        (StoreCall.getBucketVersioning n))

/-- `destroy_bucket` (source lines 101-169).  The run is parameterized by the
store state, the module parameters `name` and `force`, and the page
decompositions the two paginators return (`pages` for
`list_object_versions`, `plainPages` for `list_objects_v2`).

Control flow, mirroring the source:
* `bucket_exists` probe; absent bucket exits with `changed=False`;
* under `force`, `get_bucket_versioning` is read; `required_versioning` is
  assigned (to "Suspended") only when the status equals "Enabled", so any
  other status reaches `if required_versioning:` with the local unbound and
  Python raises UnboundLocalError (source lines 122-125);
* in the "Enabled" case: `put_bucket_versioning`, the convergence wait, the
  version purge loop, the plain-object sweep;
* finally `delete_bucket` plus the `bucket_not_exists` waiter, and
  `exit_json(changed=True)`. -/
def destroy_bucket (st : Store) (n : String) (force : Bool)
    (pages : List VersionPage) (plainPages : List (List String)) : RunOutcome :=
  if bucket_exists st n = false then
    ⟨.ok false, st, [StoreCall.listBuckets n]⟩
  else if force then
    if st.statusOf n = some "Enabled" then
      wait_then_purge (st.setVersioning n "Suspended") n pages plainPages
        [StoreCall.listBuckets n, StoreCall.getBucketVersioning n,
          StoreCall.putBucketVersioning n "Suspended"]
    else
      ⟨.error (.uncaught "UnboundLocalError"), st,
        [StoreCall.listBuckets n, StoreCall.getBucketVersioning n]⟩
  else
    delete_bucket_step st n [StoreCall.listBuckets n]

/-- Version records of bucket `n` as seen in the store (empty when the
bucket does not exist). -/
def Store.versionRecordsOf (st : Store) (n : String) : List ObjectVersionRecord :=
  ((st.find n).map Bucket.versions).getD []

/-- Plain objects of bucket `n` as seen in the store (empty when the bucket
does not exist). -/
def Store.plainObjectsOf (st : Store) (n : String) : List String :=
  ((st.find n).map Bucket.plainObjects).getD []

/-- Whether a trace entry is a version-aware `delete_object` call. -/
def isVersionDelete : StoreCall → Bool
  | .deleteObject _ _ (some _) => true
  | _ => false

/-- Whether a trace entry is a plain (non version-aware) `delete_object`. -/
def isPlainDelete : StoreCall → Bool
  | .deleteObject _ _ none => true
  | _ => false

/-- Which S3 calls of the module are issued from inside a function carrying
the `AWSRetry.exponential_backoff` decorator: `get_bucket_versioning`
(source line 68), `put_bucket_versioning` (line 72) and `delete_bucket`
(line 88) are decorated; `bucket_exists`, the two paginators, the in-loop
`delete_object` calls and the `bucket_not_exists` waiter are raw client
calls with no retry wrapper. -/
def callHasRetry : StoreCall → Bool
  | .getBucketVersioning _ => true
  | .putBucketVersioning _ _ => true
  | .deleteBucket _ => true
  | _ => false

/-! ## Store lemmas -/

theorem lookupBucket_erase (l : List (String × Bucket)) (n : String) :
    lookupBucket (eraseBucketList l n) n = none := by
  induction l with
  | nil => rfl
  | cons p rest ih =>
    obtain ⟨k, b⟩ := p
    by_cases h : k = n
    · simp [eraseBucketList, h, ih]
    · simp [eraseBucketList, lookupBucket, h, ih]

theorem Store.find_erase (st : Store) (n : String) :
    (st.erase n).find n = none :=
  lookupBucket_erase st.buckets n

theorem lookupBucket_update (f : Bucket → Bucket) (l : List (String × Bucket)) (n : String) :
    lookupBucket (updateBucketList f l n) n = (lookupBucket l n).map f := by
  induction l with
  | nil => rfl
  | cons p rest ih =>
    obtain ⟨k, b⟩ := p
    by_cases h : k = n
    · simp [updateBucketList, lookupBucket, h]
    · simp [updateBucketList, lookupBucket, h, ih]

theorem Store.find_updateBucket (st : Store) (n : String) (f : Bucket → Bucket) :
    (st.updateBucket n f).find n = (st.find n).map f :=
  lookupBucket_update f st.buckets n

theorem bucket_exists_false_iff (st : Store) (n : String) :
    bucket_exists st n = false ↔ st.find n = none := by
  unfold bucket_exists Store.find
  induction st.buckets with
  | nil => simp [lookupBucket]
  | cons p rest ih =>
    obtain ⟨k, b⟩ := p
    by_cases h : k = n
    · simp [lookupBucket, h]
    · simpa [lookupBucket, h] using ih

theorem Store.find_setVersioning (st : Store) (n s : String) :
    (st.setVersioning n s).find n =
      (st.find n).map fun b => { b with versioning := parseVersioningStatus s } :=
  Store.find_updateBucket st n _

theorem Store.statusOf_setVersioning_suspended (st : Store) (n : String) (b : Bucket)
    (h : st.find n = some b) :
    (st.setVersioning n "Suspended").statusOf n = some "Suspended" := by
  unfold Store.statusOf
  rw [Store.find_setVersioning, h]
  rfl

/-! ## Wait-loop lemmas -/

theorem waitFrom_reads_le (obs : Nat → Except String (Option String)) (required : String)
    (fuel : Nat) : ∀ i, (waitFrom obs required i fuel).reads ≤ i + fuel := by
  induction fuel with
  | zero => intro i; simp [waitFrom]
  | succ fuel ih =>
    intro i
    unfold waitFrom
    match h : obs i with
    | .error code => simp
    | .ok status =>
      by_cases hs : status = some required
      · simp [hs]
      · simp [hs]
        calc (waitFrom obs required (i + 1) fuel).reads ≤ (i + 1) + fuel := ih (i + 1)
          _ = i + (fuel + 1) := by omega

theorem waitFrom_timeout (obs : Nat → Except String (Option String)) (required : String)
    (fuel : Nat) :
    ∀ i, (∀ j, i ≤ j → j < i + fuel → obs j = .ok (some required) → False) →
      (∀ j, i ≤ j → j < i + fuel → ∃ s, obs j = .ok s) →
      waitFrom obs required i fuel =
        ⟨.error (.failJson "Bucket versioning failed to apply in the excepted time"),
          i + fuel, 5 * (i + fuel)⟩ := by
  induction fuel with
  | zero => intro i _ _; simp [waitFrom]
  | succ fuel ih =>
    intro i hmiss hok
    unfold waitFrom
    obtain ⟨s, hs⟩ := hok i (le_refl i) (by omega)
    rw [hs]
    have hne : s ≠ some required := by
      intro h
      exact hmiss i (le_refl i) (by omega) (by rw [hs, h])
    simp only [hne, if_false]
    have := ih (i + 1)
      (fun j h1 h2 => hmiss j (by omega) (by omega))
      (fun j h1 h2 => hok j (by omega) (by omega))
    rw [this]
    congr 1 <;> omega

theorem waitFrom_success (obs : Nat → Except String (Option String)) (required : String)
    (fuel : Nat) :
    ∀ i k, i ≤ k → k < i + fuel → obs k = .ok (some required) →
      (∀ j, i ≤ j → j < k → obs j = .ok (some required) → False) →
      (∀ j, i ≤ j → j < k → ∃ s, obs j = .ok s) →
      waitFrom obs required i fuel = ⟨.ok (some required), k + 1, 5 * k⟩ := by
  induction fuel with
  | zero => intro i k h1 h2; omega
  | succ fuel ih =>
    intro i k h1 h2 hk hmiss hok
    unfold waitFrom
    by_cases hik : i = k
    · subst hik
      rw [hk]
      simp
    · obtain ⟨s, hs⟩ := hok i (le_refl i) (by omega)
      rw [hs]
      have hne : s ≠ some required := by
        intro h
        exact hmiss i (le_refl i) (by omega) (by rw [hs, h])
      simp only [hne, if_false]
      exact ih (i + 1) k (by omega) (by omega) hk
        (fun j ha hb => hmiss j (by omega) hb)
        (fun j ha hb => hok j (by omega) hb)

theorem waitFrom_congr (obs obs' : Nat → Except String (Option String)) (required : String)
    (fuel : Nat) :
    ∀ i, (∀ j, i ≤ j → j < i + fuel → obs' j = obs j) →
      waitFrom obs' required i fuel = waitFrom obs required i fuel := by
  induction fuel with
  | zero => intro i _; rfl
  | succ fuel ih =>
    intro i hagree
    unfold waitFrom
    rw [hagree i (le_refl i) (by omega)]
    match obs i with
    | .error code => rfl
    | .ok status =>
      by_cases hs : status = some required
      · simp [hs]
      · simp only [hs, if_false]
        exact ih (i + 1) (fun j h1 h2 => hagree j (by omega) (by omega))

/-! ## Purge lemmas -/

/-- List-level effect of deleting each record of `ds` from catalog `l`. -/
def dropRecords (l ds : List ObjectVersionRecord) : List ObjectVersionRecord :=
  ds.foldl (fun acc d => acc.filter fun r => !(r.key == d.key && r.versionId == d.versionId)) l

theorem find_foldl_deleteVersion (n : String) (ds : List ObjectVersionRecord) :
    ∀ st : Store,
      (ds.foldl (fun s r => s.deleteVersion n r.key r.versionId) st).find n =
        (st.find n).map fun b => { b with versions := dropRecords b.versions ds } := by
  induction ds with
  | nil =>
    intro st
    cases h : st.find n with
    | none => simp [h]
    | some b => simp [h, dropRecords]
  | cons d ds ih =>
    intro st
    rw [List.foldl_cons, ih]
    unfold Store.deleteVersion
    rw [Store.find_updateBucket]
    cases h : st.find n with
    | none => simp
    | some b => simp [dropRecords]

theorem Store.find_applyPurge (st : Store) (n : String) (pages : List VersionPage) :
    (applyPurge st n pages).find n =
      (st.find n).map fun b => { b with versions := dropRecords b.versions (purgeRecords pages) } :=
  find_foldl_deleteVersion n (purgeRecords pages) st

theorem recordMatches_iff (r d : ObjectVersionRecord) :
    (r.key == d.key && r.versionId == d.versionId) = true ↔
      (r.key = d.key ∧ r.versionId = d.versionId) := by
  simp [Bool.and_eq_true]

theorem mem_dropRecords (ds : List ObjectVersionRecord) :
    ∀ (l : List ObjectVersionRecord) (r : ObjectVersionRecord),
      r ∈ dropRecords l ds ↔
        r ∈ l ∧ ∀ d ∈ ds, ¬(r.key = d.key ∧ r.versionId = d.versionId) := by
  induction ds with
  | nil => intro l r; simp [dropRecords]
  | cons d ds ih =>
    intro l r
    have step : dropRecords l (d :: ds) =
        dropRecords (l.filter fun x => !(x.key == d.key && x.versionId == d.versionId)) ds := rfl
    rw [step, ih]
    simp only [List.mem_filter, List.forall_mem_cons]
    constructor
    · rintro ⟨⟨hl, hf⟩, hrest⟩
      refine ⟨hl, ?_, hrest⟩
      intro hmatch
      have hm : (r.key == d.key && r.versionId == d.versionId) = true :=
        (recordMatches_iff r d).mpr hmatch
      rw [Bool.not_eq_true'] at hf
      rw [hm] at hf
      exact absurd hf (by simp)
    · rintro ⟨hl, hd, hrest⟩
      refine ⟨⟨hl, ?_⟩, hrest⟩
      rw [Bool.not_eq_true']
      cases hc : (r.key == d.key && r.versionId == d.versionId)
      · rfl
      · exact absurd ((recordMatches_iff r d).mp hc) hd

theorem dropRecords_eq_nil (l ds : List ObjectVersionRecord)
    (hcover : ∀ r ∈ l, r ∈ ds) : dropRecords l ds = [] := by
  rw [List.eq_nil_iff_forall_not_mem]
  intro r hr
  rw [mem_dropRecords] at hr
  exact hr.2 r (hcover r hr.1) ⟨rfl, rfl⟩

theorem perm_exchange {α : Type _} [DecidableEq α] (u v w z : List α) :
    List.Perm (u ++ v ++ (w ++ z)) (u ++ w ++ (v ++ z)) := by
  rw [List.perm_iff_count]
  intro x
  simp only [List.count_append]
  omega

theorem purgeRecords_perm_split (pages : List VersionPage) :
    List.Perm (purgeRecords pages)
      ((pages.map VersionPage.deleteMarkers).flatten ++ (pages.map VersionPage.versions).flatten) := by
  induction pages with
  | nil => simp [purgeRecords]
  | cons p ps ih =>
    have h1 : purgeRecords (p :: ps) = pageRecords p ++ purgeRecords ps := by
      simp [purgeRecords]
    rw [h1]
    simp only [List.map_cons, List.flatten_cons]
    exact (List.Perm.append_left (pageRecords p) ih).trans
      (perm_exchange p.deleteMarkers p.versions
        (ps.map VersionPage.deleteMarkers).flatten (ps.map VersionPage.versions).flatten)

theorem purgeRecords_perm (pages : List VersionPage) (vs : List ObjectVersionRecord)
    (h1 : (pages.map VersionPage.deleteMarkers).flatten = vs.filter fun r => r.isDeleteMarker)
    (h2 : (pages.map VersionPage.versions).flatten = vs.filter fun r => !r.isDeleteMarker) :
    List.Perm (purgeRecords pages) vs := by
  have h := purgeRecords_perm_split pages
  rw [h1, h2] at h
  exact h.trans (List.filter_append_perm _ vs)

/-! ## Sweep and trace-shape lemmas -/

theorem plain_sweep_all_empty (n : String) (pp : List (List String))
    (h : ∀ pg ∈ pp, pg = []) :
    plain_sweep n pp = (.ok (), List.replicate pp.length (StoreCall.listObjectsV2 n)) := by
  induction pp with
  | nil => rfl
  | cons pg rest ih =>
    have hpg : pg = [] := h pg (List.mem_cons_self pg rest)
    have hrest := ih fun q hq => h q (List.mem_cons_of_mem pg hq)
    simp [plain_sweep, hpg, hrest, List.replicate_succ]

theorem plain_sweep_nonempty_error (n : String) (pp : List (List String))
    (h : ∃ pg ∈ pp, pg ≠ []) :
    (plain_sweep n pp).1 = .error (.uncaught "NameError") := by
  induction pp with
  | nil => simp at h
  | cons pg rest ih =>
    by_cases hpg : pg.isEmpty
    · have hrest : ∃ q ∈ rest, q ≠ [] := by
        obtain ⟨q, hq, hne⟩ := h
        rcases List.mem_cons.mp hq with heq | hmem
        · exact absurd (by rw [heq]; exact List.isEmpty_iff.mp hpg) hne
        · exact ⟨q, hmem, hne⟩
      simp [plain_sweep, hpg, ih hrest]
    · simp [plain_sweep, hpg]

theorem plain_sweep_calls_shape (n : String) (pp : List (List String)) :
    ∀ c ∈ (plain_sweep n pp).2, c = StoreCall.listObjectsV2 n := by
  induction pp with
  | nil => intro c hc; simp [plain_sweep] at hc
  | cons pg rest ih =>
    intro c hc
    cases hpg : pg.isEmpty with
    | true =>
      have e1 : (plain_sweep n (pg :: rest)).2 =
          StoreCall.listObjectsV2 n :: (plain_sweep n rest).2 := by
        simp [plain_sweep, hpg]
      rw [e1, List.mem_cons] at hc
      rcases hc with h | h
      · exact h
      · exact ih c h
    | false =>
      have e2 : (plain_sweep n (pg :: rest)).2 = [StoreCall.listObjectsV2 n] := by
        simp [plain_sweep, hpg]
      rw [e2, List.mem_singleton] at hc
      exact hc

theorem mem_purge_calls (n : String) (pages : List VersionPage) :
    ∀ c ∈ purge_version_pages_calls n pages,
      c = StoreCall.listObjectVersions n ∨
        ∃ r ∈ purgeRecords pages, c = StoreCall.deleteObject n r.key (some r.versionId) := by
  induction pages with
  | nil => intro c hc; simp [purge_version_pages_calls] at hc
  | cons p ps ih =>
    intro c hc
    have hstep : purge_version_pages_calls n (p :: ps) =
        pageCalls n p ++ purge_version_pages_calls n ps := by
      simp [purge_version_pages_calls]
    rw [hstep, List.mem_append] at hc
    rcases hc with hc | hc
    · simp only [pageCalls, List.mem_cons] at hc
      rcases hc with h | h
      · exact Or.inl h
      · obtain ⟨r, hr, hcr⟩ := List.mem_map.mp h
        refine Or.inr ⟨r, ?_, hcr.symm⟩
        have : purgeRecords (p :: ps) = pageRecords p ++ purgeRecords ps := by
          simp [purgeRecords]
        rw [this, List.mem_append]
        exact Or.inl hr
    · rcases ih c hc with h | ⟨r, hr, hcr⟩
      · exact Or.inl h
      · refine Or.inr ⟨r, ?_, hcr⟩
        have : purgeRecords (p :: ps) = pageRecords p ++ purgeRecords ps := by
          simp [purgeRecords]
        rw [this, List.mem_append]
        exact Or.inr hr

theorem filter_versionDelete_purge_calls (n : String) (pages : List VersionPage) :
    (purge_version_pages_calls n pages).filter isVersionDelete =
      (purgeRecords pages).map fun r => StoreCall.deleteObject n r.key (some r.versionId) := by
  induction pages with
  | nil => rfl
  | cons p ps ih =>
    have hstep : purge_version_pages_calls n (p :: ps) =
        pageCalls n p ++ purge_version_pages_calls n ps := by
      simp [purge_version_pages_calls]
    have hrec : purgeRecords (p :: ps) = pageRecords p ++ purgeRecords ps := by
      simp [purgeRecords]
    rw [hstep, hrec, List.filter_append, List.map_append, ih]
    congr 1
    have hmap : ((pageRecords p).map fun r =>
        StoreCall.deleteObject n r.key (some r.versionId)).filter isVersionDelete =
        (pageRecords p).map fun r => StoreCall.deleteObject n r.key (some r.versionId) := by
      rw [List.filter_eq_self]
      intro a ha
      obtain ⟨r, _, hra⟩ := List.mem_map.mp ha
      rw [← hra]
      rfl
    simp only [pageCalls, List.filter_cons]
    have : isVersionDelete (StoreCall.listObjectVersions n) = false := rfl
    rw [this]
    simpa using hmap

/-! ## Delete-step lemmas -/

theorem rawDeleteBucketResponse_noSuchBucket (st : Store) (n : String)
    (h : rawDeleteBucketResponse st n = .clientError "NoSuchBucket") :
    st.find n = none := by
  unfold rawDeleteBucketResponse at h
  cases hf : st.find n with
  | none => rfl
  | some b =>
    rw [hf] at h
    by_cases he : b.versions.isEmpty && b.plainObjects.isEmpty
    · simp [he] at h
    · simp only [he, if_false, Bool.false_eq_true] at h
      have : "BucketNotEmpty" = "NoSuchBucket" := by injection h
      exact absurd this (by decide)

theorem delete_bucket_step_ok_find_none (st : Store) (n : String) (acc : List StoreCall)
    (b : Bool) (h : (delete_bucket_step st n acc).result = .ok b) :
    (delete_bucket_step st n acc).store.find n = none := by
  unfold delete_bucket_step at h ⊢
  cases hresp : rawDeleteBucketResponse st n with
  | ok =>
    simp [delete_bucket, applyDeleteBucket, hresp, Store.find_erase]
  | clientError code =>
    rw [hresp] at h
    by_cases hcode : code = "NoSuchBucket"
    · subst hcode
      simp only [delete_bucket, if_pos rfl]
      simp only [applyDeleteBucket, hresp]
      exact rawDeleteBucketResponse_noSuchBucket st n hresp
    · simp [delete_bucket, hcode] at h

theorem delete_bucket_step_nonempty (st : Store) (n : String) (acc : List StoreCall)
    (b : Bucket) (hf : st.find n = some b) (hne : ¬(b.versions.isEmpty && b.plainObjects.isEmpty)) :
    delete_bucket_step st n acc =
      ⟨.error (.failJsonAws "Failed to delete bucket" "BucketNotEmpty"), st,
        acc ++ [StoreCall.deleteBucket n]⟩ := by
  have hresp : rawDeleteBucketResponse st n = .clientError "BucketNotEmpty" := by
    simp [rawDeleteBucketResponse, hf, hne]
  unfold delete_bucket_step
  rw [hresp]
  simp [delete_bucket]

theorem delete_bucket_step_empty (st : Store) (n : String) (acc : List StoreCall)
    (b : Bucket) (hf : st.find n = some b) (hv : b.versions = []) (hp : b.plainObjects = []) :
    delete_bucket_step st n acc =
      ⟨.ok true, st.erase n,
        acc ++ [StoreCall.deleteBucket n, StoreCall.waitBucketNotExists n]⟩ := by
  have hresp : rawDeleteBucketResponse st n = .ok := by
    simp [rawDeleteBucketResponse, hf, hv, hp]
  unfold delete_bucket_step
  rw [hresp]
  simp [delete_bucket, applyDeleteBucket, hresp]

/-! ## Orchestrator lemmas -/

theorem wait_const_hit (r : String) :
    wait_versioning_is_applied (fun _ => .ok (some r)) r = ⟨.ok (some r), 1, 0⟩ := by
  unfold wait_versioning_is_applied
  unfold waitFrom
  simp

theorem sweep_and_delete_ok_find_none (st2 : Store) (n : String) (pp : List (List String))
    (acc : List StoreCall) (b : Bool)
    (h : (sweep_and_delete st2 n pp acc).result = .ok b) :
    (sweep_and_delete st2 n pp acc).store.find n = none := by
  unfold sweep_and_delete at h ⊢
  cases hsw : (plain_sweep n pp).1 with
  | error e => rw [hsw] at h; simp at h
  | ok u => rw [hsw] at h; exact delete_bucket_step_ok_find_none _ _ _ b h

theorem purge_then_delete_ok_find_none (st1 : Store) (n : String) (pages : List VersionPage)
    (pp : List (List String)) (acc : List StoreCall) (b : Bool)
    (h : (purge_then_delete st1 n pages pp acc).result = .ok b) :
    (purge_then_delete st1 n pages pp acc).store.find n = none :=
  sweep_and_delete_ok_find_none _ _ _ _ b h

theorem wait_then_purge_ok_find_none (st1 : Store) (n : String) (pages : List VersionPage)
    (pp : List (List String)) (acc : List StoreCall) (b : Bool)
    (h : (wait_then_purge st1 n pages pp acc).result = .ok b) :
    (wait_then_purge st1 n pages pp acc).store.find n = none := by
  unfold wait_then_purge at h ⊢
  cases hw : (wait_versioning_is_applied (fun _ => .ok (st1.statusOf n)) "Suspended").result with
  | error e => rw [hw] at h; simp at h
  | ok s => rw [hw] at h; exact purge_then_delete_ok_find_none _ _ _ _ _ b h

theorem destroy_bucket_ok_find_none (st : Store) (n : String) (force : Bool)
    (pages : List VersionPage) (pp : List (List String)) (b : Bool)
    (h : (destroy_bucket st n force pages pp).result = .ok b) :
    (destroy_bucket st n force pages pp).store.find n = none := by
  unfold destroy_bucket at h ⊢
  by_cases hex : bucket_exists st n = false
  · rw [if_pos hex] at h ⊢
    exact (bucket_exists_false_iff st n).mp hex
  · rw [if_neg hex] at h ⊢
    cases force with
    | false =>
      rw [if_neg Bool.false_ne_true] at h ⊢
      exact delete_bucket_step_ok_find_none _ _ _ b h
    | true =>
      rw [if_pos rfl] at h ⊢
      by_cases hst : st.statusOf n = some "Enabled"
      · rw [if_pos hst] at h ⊢
        exact wait_then_purge_ok_find_none _ _ _ _ _ b h
      · rw [if_neg hst] at h
        simp at h

theorem delete_bucket_step_no_plainDelete (st : Store) (n : String) (acc : List StoreCall)
    (hacc : ∀ c ∈ acc, isPlainDelete c = false) :
    ∀ c ∈ (delete_bucket_step st n acc).calls, isPlainDelete c = false := by
  unfold delete_bucket_step
  cases delete_bucket (rawDeleteBucketResponse st n) with
  | ok u =>
    intro c hc
    rw [List.mem_append] at hc
    rcases hc with h | h
    · exact hacc c h
    · rcases List.mem_cons.mp h with h | h
      · rw [h]; rfl
      · rw [List.mem_singleton.mp h]; rfl
  | error code =>
    intro c hc
    rw [List.mem_append] at hc
    rcases hc with h | h
    · exact hacc c h
    · rw [List.mem_singleton.mp h]; rfl

theorem sweep_and_delete_no_plainDelete (st2 : Store) (n : String) (pp : List (List String))
    (acc : List StoreCall) (hacc : ∀ c ∈ acc, isPlainDelete c = false) :
    ∀ c ∈ (sweep_and_delete st2 n pp acc).calls, isPlainDelete c = false := by
  have hacc2 : ∀ c ∈ acc ++ (plain_sweep n pp).2, isPlainDelete c = false := by
    intro c hc
    rw [List.mem_append] at hc
    rcases hc with h | h
    · exact hacc c h
    · rw [plain_sweep_calls_shape n pp c h]; rfl
  unfold sweep_and_delete
  cases (plain_sweep n pp).1 with
  | error e => exact hacc2
  | ok u => exact delete_bucket_step_no_plainDelete _ _ _ hacc2

theorem purge_then_delete_no_plainDelete (st1 : Store) (n : String) (pages : List VersionPage)
    (pp : List (List String)) (acc : List StoreCall)
    (hacc : ∀ c ∈ acc, isPlainDelete c = false) :
    ∀ c ∈ (purge_then_delete st1 n pages pp acc).calls, isPlainDelete c = false := by
  apply sweep_and_delete_no_plainDelete
  intro c hc
  rw [List.mem_append] at hc
  rcases hc with h | h
  · exact hacc c h
  · rcases mem_purge_calls n pages c h with h | ⟨r, _, hr⟩
    · rw [h]; rfl
    · rw [hr]; rfl

theorem wait_then_purge_no_plainDelete (st1 : Store) (n : String) (pages : List VersionPage)
    (pp : List (List String)) (acc : List StoreCall)
    (hacc : ∀ c ∈ acc, isPlainDelete c = false) :
    ∀ c ∈ (wait_then_purge st1 n pages pp acc).calls, isPlainDelete c = false := by
  have hacc2 : ∀ c ∈ acc ++
      List.replicate (wait_versioning_is_applied (fun _ => .ok (st1.statusOf n)) "Suspended").reads
        (StoreCall.getBucketVersioning n), isPlainDelete c = false := by
    intro c hc
    rw [List.mem_append] at hc
    rcases hc with h | h
    · exact hacc c h
    · rw [(List.mem_replicate.mp h).2]; rfl
  unfold wait_then_purge
  cases (wait_versioning_is_applied (fun _ => .ok (st1.statusOf n)) "Suspended").result with
  | error e => exact hacc2
  | ok s => exact purge_then_delete_no_plainDelete _ _ _ _ _ hacc2

theorem destroy_bucket_no_plainDelete (st : Store) (n : String) (force : Bool)
    (pages : List VersionPage) (pp : List (List String)) :
    ∀ c ∈ (destroy_bucket st n force pages pp).calls, isPlainDelete c = false := by
  unfold destroy_bucket
  by_cases hex : bucket_exists st n = false
  · rw [if_pos hex]
    intro c hc
    rw [List.mem_singleton.mp hc]; rfl
  · rw [if_neg hex]
    cases force with
    | false =>
      rw [if_neg Bool.false_ne_true]
      apply delete_bucket_step_no_plainDelete
      intro c hc
      rw [List.mem_singleton.mp hc]; rfl
    | true =>
      rw [if_pos rfl]
      by_cases hst : st.statusOf n = some "Enabled"
      · rw [if_pos hst]
        apply wait_then_purge_no_plainDelete
        intro c hc
        rcases List.mem_cons.mp hc with h | h
        · rw [h]; rfl
        · rcases List.mem_cons.mp h with h2 | h2
          · rw [h2]; rfl
          · rw [List.mem_singleton.mp h2]; rfl
      · rw [if_neg hst]
        intro c hc
        rcases List.mem_cons.mp hc with h | h
        · rw [h]; rfl
        · rw [List.mem_singleton.mp h]; rfl

/-! ## Happy-path trace lemmas -/

theorem Store.statusOf_enabled (st : Store) (n : String) (b : Bucket)
    (hf : st.find n = some b) (hmode : b.versioning = .Enabled) :
    st.statusOf n = some "Enabled" := by
  simp [Store.statusOf, hf, hmode, VersioningMode.statusField]

theorem bucket_exists_ne_false (st : Store) (n : String) (b : Bucket)
    (hf : st.find n = some b) : ¬(bucket_exists st n = false) := by
  rw [bucket_exists_false_iff, hf]
  simp

theorem destroy_force_enabled_eq (st : Store) (n : String) (pages : List VersionPage)
    (pp : List (List String)) (b : Bucket)
    (hf : st.find n = some b) (hmode : b.versioning = .Enabled) :
    destroy_bucket st n true pages pp =
      wait_then_purge (st.setVersioning n "Suspended") n pages pp
        [StoreCall.listBuckets n, StoreCall.getBucketVersioning n,
          StoreCall.putBucketVersioning n "Suspended"] := by
  unfold destroy_bucket
  rw [if_neg (bucket_exists_ne_false st n b hf), if_pos rfl,
    if_pos (Store.statusOf_enabled st n b hf hmode)]

theorem wait_then_purge_converged (st1 : Store) (n : String) (pages : List VersionPage)
    (pp : List (List String)) (acc : List StoreCall)
    (hs : st1.statusOf n = some "Suspended") :
    wait_then_purge st1 n pages pp acc =
      purge_then_delete st1 n pages pp (acc ++ [StoreCall.getBucketVersioning n]) := by
  unfold wait_then_purge
  simp only [hs, wait_const_hit, List.replicate_one]

theorem sweep_and_delete_all_empty_eq (st2 : Store) (n : String) (pp : List (List String))
    (acc : List StoreCall) (hppz : ∀ pg ∈ pp, pg = []) :
    sweep_and_delete st2 n pp acc =
      delete_bucket_step st2 n (acc ++ List.replicate pp.length (StoreCall.listObjectsV2 n)) := by
  unfold sweep_and_delete
  rw [plain_sweep_all_empty n pp hppz]

theorem destroy_force_enabled_run (st : Store) (n : String) (pages : List VersionPage)
    (pp : List (List String)) (b : Bucket)
    (hf : st.find n = some b) (hmode : b.versioning = .Enabled)
    (hppz : ∀ pg ∈ pp, pg = []) :
    destroy_bucket st n true pages pp =
      delete_bucket_step (applyPurge (st.setVersioning n "Suspended") n pages) n
        ((([StoreCall.listBuckets n, StoreCall.getBucketVersioning n,
            StoreCall.putBucketVersioning n "Suspended"]
          ++ [StoreCall.getBucketVersioning n]) ++ purge_version_pages_calls n pages)
          ++ List.replicate pp.length (StoreCall.listObjectsV2 n)) := by
  rw [destroy_force_enabled_eq st n pages pp b hf hmode]
  rw [wait_then_purge_converged _ _ _ _ _ (Store.statusOf_setVersioning_suspended st n b hf)]
  unfold purge_then_delete
  rw [sweep_and_delete_all_empty_eq _ _ _ _ hppz]

theorem find_after_purge (st : Store) (n : String) (pages : List VersionPage) (b : Bucket)
    (hf : st.find n = some b) :
    (applyPurge (st.setVersioning n "Suspended") n pages).find n =
      some { versioning := .Suspended,
             versions := dropRecords b.versions (purgeRecords pages),
             plainObjects := b.plainObjects } := by
  rw [Store.find_applyPurge, Store.find_setVersioning, hf]
  simp [parseVersioningStatus]

theorem isVersionDelete_listBuckets (n : String) :
    isVersionDelete (StoreCall.listBuckets n) = false := rfl

theorem isVersionDelete_getBucketVersioning (n : String) :
    isVersionDelete (StoreCall.getBucketVersioning n) = false := rfl

theorem isVersionDelete_putBucketVersioning (n s : String) :
    isVersionDelete (StoreCall.putBucketVersioning n s) = false := rfl

theorem isVersionDelete_listObjectsV2 (n : String) :
    isVersionDelete (StoreCall.listObjectsV2 n) = false := rfl

theorem isVersionDelete_deleteBucket (n : String) :
    isVersionDelete (StoreCall.deleteBucket n) = false := rfl

theorem isVersionDelete_waitBucketNotExists (n : String) :
    isVersionDelete (StoreCall.waitBucketNotExists n) = false := rfl

theorem filter_versionDelete_replicate (k : Nat) (n : String) :
    (List.replicate k (StoreCall.listObjectsV2 n)).filter isVersionDelete = [] := by
  induction k with
  | zero => rfl
  | succ k ih =>
    rw [List.replicate_succ, List.filter_cons, isVersionDelete_listObjectsV2]
    simpa using ih

/-! ## Concrete inputs used by witnesses -/

/-- A data version. -/
def recV1 : ObjectVersionRecord := ⟨"k1", "v1", false⟩

/-- A delete marker on the same key. -/
def recM1 : ObjectVersionRecord := ⟨"k1", "v2", true⟩

/-- A versioning-enabled bucket holding one data version and one marker. -/
def demoBucket : Bucket := ⟨.Enabled, [recV1, recM1], []⟩

/-- A store holding only `demoBucket` under the name "b1". -/
def demoStore : Store := ⟨[("b1", demoBucket)]⟩

/-- A single-page listing of `demoBucket`. -/
def demoPages : List VersionPage := [⟨[recM1], [recV1]⟩]

/-- A bucket whose versioning is already Suspended at probe time. -/
def suspendedBucket : Bucket := ⟨.Suspended, [recV1], []⟩

/-- Store for the Suspended case. -/
def suspendedStore : Store := ⟨[("b1", suspendedBucket)]⟩

/-- A bucket whose versioning was never configured (Unset). -/
def unsetBucket : Bucket := ⟨.Unset, [recV1], []⟩

/-- Store for the Unset case. -/
def unsetStore : Store := ⟨[("b1", unsetBucket)]⟩

/-- An Enabled bucket that still holds a plain object. -/
def plainBucket : Bucket := ⟨.Enabled, [recV1], ["p1"]⟩

/-- Store for the plain-object case. -/
def plainStore : Store := ⟨[("b1", plainBucket)]⟩

/-- Observation sequence converging at the third read. -/
def demoSeq : Nat → Option String := fun j => if j = 2 then some "Suspended" else none

/-- A run on an absent bucket probes existence and stops with changed=false. -/
theorem destroy_bucket_absent (st : Store) (n : String) (force : Bool)
    (pages : List VersionPage) (pp : List (List String)) (h : st.find n = none) :
    destroy_bucket st n force pages pp = ⟨.ok false, st, [StoreCall.listBuckets n]⟩ := by
  unfold destroy_bucket
  rw [if_pos ((bucket_exists_false_iff st n).mpr h)]

/-! ## Claims -/

/-- C4: the versioning-convergence wait polls at a fixed 5-time-unit interval
for at most 12 attempts; an attempt observing the target returns that status
immediately (after `k` failed attempts it has read `k+1` times and slept
`5*k` units); if all 12 attempts miss, it fails with the convergence-timeout
message after 12 reads and 60 slept units; and the outcome depends only on
the first 12 observations (it never polls further). -/
theorem c4_wait_convergence_spec (seq : Nat → Option String) (required : String) :
    (wait_versioning_is_applied (fun j => .ok (seq j)) required).reads ≤ 12
    ∧ ((∀ j, j < 12 → seq j ≠ some required) →
        wait_versioning_is_applied (fun j => .ok (seq j)) required =
          ⟨.error (.failJson "Bucket versioning failed to apply in the excepted time"), 12, 60⟩)
    ∧ (∀ k, k < 12 → seq k = some required →
        (∀ j, j < k → seq j ≠ some required) →
        wait_versioning_is_applied (fun j => .ok (seq j)) required =
          ⟨.ok (some required), k + 1, 5 * k⟩)
    ∧ (∀ obs : Nat → Except String (Option String),
        (∀ j, j < 12 → obs j = .ok (seq j)) →
        wait_versioning_is_applied obs required =
          wait_versioning_is_applied (fun j => .ok (seq j)) required) := by
  refine ⟨?_, ?_, ?_, ?_⟩
  · simpa using waitFrom_reads_le (fun j => .ok (seq j)) required 12 0
  · intro hmiss
    unfold wait_versioning_is_applied
    have h := waitFrom_timeout (fun j => .ok (seq j)) required 12 0
      (fun j _ hj hok => hmiss j (by omega) (Except.ok.inj hok))
      (fun j _ _ => ⟨seq j, rfl⟩)
    simpa using h
  · intro k hk hkhit hmiss
    unfold wait_versioning_is_applied
    exact waitFrom_success (fun j => .ok (seq j)) required 12 0 k (Nat.zero_le k) (by omega)
      (by simp [hkhit])
      (fun j _ hj hok => hmiss j hj (Except.ok.inj hok))
      (fun j _ _ => ⟨seq j, rfl⟩)
  · intro obs hobs
    unfold wait_versioning_is_applied
    exact waitFrom_congr (fun j => .ok (seq j)) obs required 12 0 (fun j _ hj => hobs j (by omega))

/-- C4 witness: with observations missing twice then showing "Suspended" at
the third read, the wait returns that status after 3 reads and 10 slept
units. -/
theorem c4_wait_convergence_spec_witness :
    (2 < 12 ∧ demoSeq 2 = some "Suspended" ∧ (∀ j, j < 2 → demoSeq j ≠ some "Suspended")) ∧
    wait_versioning_is_applied (fun j => .ok (demoSeq j)) "Suspended" =
      ⟨.ok (some "Suspended"), 3, 10⟩ :=
  ⟨⟨by decide, by decide, by decide⟩,
    (c4_wait_convergence_spec demoSeq "Suspended").2.2.1 2 (by decide) (by decide) (by decide)⟩

/-- C5: in the bucket-delete step, a NoSuchBucket ClientError from the store
is swallowed and the step completes as success, while any other client error
code is propagated as a failure. -/
theorem c5_delete_bucket_notFound_is_success (code : String) (h : code ≠ "NoSuchBucket") :
    delete_bucket (.clientError "NoSuchBucket") = .ok () ∧
    delete_bucket (.clientError code) = .error code := by
  constructor
  · simp [delete_bucket]
  · simp [delete_bucket, h]

/-- C5 witness at the concrete error code "AccessDenied". -/
theorem c5_delete_bucket_notFound_is_success_witness :
    ("AccessDenied" ≠ "NoSuchBucket") ∧
    (delete_bucket (.clientError "NoSuchBucket") = .ok () ∧
      delete_bucket (.clientError "AccessDenied") = .error "AccessDenied") :=
  ⟨by decide, c5_delete_bucket_notFound_is_success "AccessDenied" (by decide)⟩

/-- C6: with force=false on a bucket whose object-version set is non-empty,
the run performs no purge (the trace is exactly the probe and the failing
bucket-delete, with no delete-object call, and the store is untouched) and
terminates with the surfaced store-enforced BucketNotEmpty failure. -/
theorem c6_noforce_nonempty_fails (st : Store) (n : String) (pages : List VersionPage)
    (pp : List (List String)) (b : Bucket)
    (hf : st.find n = some b) (hne : b.versions ≠ []) :
    destroy_bucket st n false pages pp =
      ⟨.error (.failJsonAws "Failed to delete bucket" "BucketNotEmpty"), st,
        [StoreCall.listBuckets n, StoreCall.deleteBucket n]⟩ ∧
    ∀ c ∈ (destroy_bucket st n false pages pp).calls,
      ∀ nm k v, c ≠ StoreCall.deleteObject nm k v := by
  have hrun : destroy_bucket st n false pages pp =
      delete_bucket_step st n [StoreCall.listBuckets n] := by
    unfold destroy_bucket
    rw [if_neg (bucket_exists_ne_false st n b hf), if_neg Bool.false_ne_true]
  have hemp : ¬(b.versions.isEmpty && b.plainObjects.isEmpty) := by
    intro hc
    exact hne (List.isEmpty_iff.mp (Bool.and_eq_true_iff.mp hc).1)
  have hstep := delete_bucket_step_nonempty st n [StoreCall.listBuckets n] b hf hemp
  constructor
  · rw [hrun, hstep]
    rfl
  · rw [hrun, hstep]
    intro c hc nm k v
    rcases List.mem_cons.mp hc with h1 | h1
    · rw [h1]; simp
    · rcases List.mem_cons.mp h1 with h2 | h2
      · rw [h2]; simp
      · simp at h2

/-- C6 witness on the demo store. -/
theorem c6_noforce_nonempty_fails_witness :
    (demoStore.find "b1" = some demoBucket ∧ demoBucket.versions ≠ []) ∧
    (destroy_bucket demoStore "b1" false [] [] =
        ⟨.error (.failJsonAws "Failed to delete bucket" "BucketNotEmpty"), demoStore,
          [StoreCall.listBuckets "b1", StoreCall.deleteBucket "b1"]⟩ ∧
      ∀ c ∈ (destroy_bucket demoStore "b1" false [] []).calls,
        ∀ nm k v, c ≠ StoreCall.deleteObject nm k v) :=
  ⟨⟨rfl, by decide⟩, c6_noforce_nonempty_fails demoStore "b1" [] [] demoBucket rfl (by decide)⟩

/-- C7: a run on a bucket name absent from the store reports changed=false,
leaves the store untouched, and issues only the existence probe (so no
versioning read or write, no delete-object and no bucket-delete call). -/
theorem c7_absent_bucket_untouched (st : Store) (n : String) (force : Bool)
    (pages : List VersionPage) (pp : List (List String)) (h : st.find n = none) :
    destroy_bucket st n force pages pp = ⟨.ok false, st, [StoreCall.listBuckets n]⟩ :=
  destroy_bucket_absent st n force pages pp h

/-- C7 witness: the empty store and bucket name "b2". -/
theorem c7_absent_bucket_untouched_witness :
    (Store.find ⟨[]⟩ "b2" = none) ∧
    destroy_bucket ⟨[]⟩ "b2" true [] [] = ⟨.ok false, ⟨[]⟩, [StoreCall.listBuckets "b2"]⟩ :=
  ⟨rfl, c7_absent_bucket_untouched ⟨[]⟩ "b2" true [] [] rfl⟩

/-- C1 (defect evidence): on a force=true run against an existing bucket
whose versioning mode at probe time is Suspended or Unset, the module never
requests a versioning transition, but instead of proceeding without error it
crashes: `required_versioning` is assigned only in the Enabled branch
(source line 123), so `if required_versioning:` (line 125) raises
UnboundLocalError.  The trace stops right after the versioning read, with no
put-bucket-versioning call and no further convergence read. -/
theorem c1_forced_nonEnabled_unboundLocal :
    destroy_bucket suspendedStore "b1" true [] [] =
      ⟨.error (.uncaught "UnboundLocalError"), suspendedStore,
        [StoreCall.listBuckets "b1", StoreCall.getBucketVersioning "b1"]⟩ ∧
    destroy_bucket unsetStore "b1" true [] [] =
      ⟨.error (.uncaught "UnboundLocalError"), unsetStore,
        [StoreCall.listBuckets "b1", StoreCall.getBucketVersioning "b1"]⟩ :=
  ⟨by decide, by decide⟩

/-- C2: whenever a force=true run reports changed=true, the bucket is gone
from the final store state, so its object-version set and plain-object set
are both empty. -/
theorem c2_force_success_bucket_gone (st : Store) (n : String)
    (pages : List VersionPage) (pp : List (List String))
    (h : (destroy_bucket st n true pages pp).result = .ok true) :
    (destroy_bucket st n true pages pp).store.find n = none ∧
    (destroy_bucket st n true pages pp).store.versionRecordsOf n = [] ∧
    (destroy_bucket st n true pages pp).store.plainObjectsOf n = [] := by
  have hnone := destroy_bucket_ok_find_none st n true pages pp true h
  exact ⟨hnone, by simp [Store.versionRecordsOf, hnone],
    by simp [Store.plainObjectsOf, hnone]⟩

/-- C2 witness: a successful force=true run on the demo store. -/
theorem c2_force_success_bucket_gone_witness :
    ((destroy_bucket demoStore "b1" true demoPages []).result = .ok true) ∧
    ((destroy_bucket demoStore "b1" true demoPages []).store.find "b1" = none ∧
      (destroy_bucket demoStore "b1" true demoPages []).store.versionRecordsOf "b1" = [] ∧
      (destroy_bucket demoStore "b1" true demoPages []).store.plainObjectsOf "b1" = []) :=
  ⟨by decide, c2_force_success_bucket_gone demoStore "b1" demoPages [] (by decide)⟩

/-- C8: when a run reports changed=true, a second run with the same name and
force finds the bucket already absent and reports changed=false after only
the existence probe, leaving the store as the first run left it. -/
theorem c8_decommission_idempotent (st : Store) (n : String) (force : Bool)
    (pages pages2 : List VersionPage) (pp pp2 : List (List String))
    (h : (destroy_bucket st n force pages pp).result = .ok true) :
    destroy_bucket (destroy_bucket st n force pages pp).store n force pages2 pp2 =
      ⟨.ok false, (destroy_bucket st n force pages pp).store, [StoreCall.listBuckets n]⟩ :=
  destroy_bucket_absent _ n force pages2 pp2
    (destroy_bucket_ok_find_none st n force pages pp true h)

/-- C8 witness: the demo run succeeds, and the repeat run reports
changed=false. -/
theorem c8_decommission_idempotent_witness :
    ((destroy_bucket demoStore "b1" true demoPages []).result = .ok true) ∧
    destroy_bucket (destroy_bucket demoStore "b1" true demoPages []).store "b1" true demoPages [] =
      ⟨.ok false, (destroy_bucket demoStore "b1" true demoPages []).store,
        [StoreCall.listBuckets "b1"]⟩ :=
  ⟨by decide, c8_decommission_idempotent demoStore "b1" true demoPages demoPages [] [] (by decide)⟩

/-- C9 counterexample: the existence probe call issued by a run is not
covered by the retry decorator (`bucket_exists` carries no
`AWSRetry.exponential_backoff`), refuting the claim that every store call of
the workflow is retry-wrapped. -/
theorem c9_probe_not_retry_wrapped :
    StoreCall.listBuckets "b1" ∈ (destroy_bucket demoStore "b1" false [] []).calls ∧
    callHasRetry (StoreCall.listBuckets "b1") = false :=
  ⟨by decide, rfl⟩

/-- C9 amended: exactly the versioning read, the versioning write and the
bucket-delete helper carry the automatic exponential-backoff retry
decorator; the existence probe, the two listing paginators, the per-record
delete-object calls and the bucket-not-exists waiter are issued without a
retry wrapper. -/
theorem c9_retry_wrapped_characterization (c : StoreCall) :
    callHasRetry c = true ↔
      ((∃ nm, c = StoreCall.getBucketVersioning nm) ∨
        (∃ nm s, c = StoreCall.putBucketVersioning nm s) ∨
        (∃ nm, c = StoreCall.deleteBucket nm)) := by
  cases c <;> simp [callHasRetry]

/-- C10: on a force=true run that reaches the plain-object fallback sweep
(existing bucket, versioning Enabled) and whose list-objects-v2 listing
returns at least one object, the run terminates with the uncaught NameError
(the loop body references the undefined `bucket_name`), and no run ever
issues a plain (non version-aware) delete-object call. -/
theorem c10_plain_sweep_nameError (st : Store) (n : String) (pages : List VersionPage)
    (pp : List (List String)) (b : Bucket)
    (hf : st.find n = some b) (hmode : b.versioning = .Enabled)
    (hnon : ∃ pg ∈ pp, pg ≠ []) :
    (destroy_bucket st n true pages pp).result = .error (.uncaught "NameError") ∧
    ∀ c ∈ (destroy_bucket st n true pages pp).calls, isPlainDelete c = false := by
  refine ⟨?_, destroy_bucket_no_plainDelete st n true pages pp⟩
  rw [destroy_force_enabled_eq st n pages pp b hf hmode]
  rw [wait_then_purge_converged _ _ _ _ _ (Store.statusOf_setVersioning_suspended st n b hf)]
  unfold purge_then_delete sweep_and_delete
  rw [plain_sweep_nonempty_error n pp hnon]

/-- C10 witness: a bucket with one remaining plain object. -/
theorem c10_plain_sweep_nameError_witness :
    (plainStore.find "b1" = some plainBucket ∧ plainBucket.versioning = .Enabled ∧
      (∃ pg ∈ [["p1"]], pg ≠ ([] : List String))) ∧
    ((destroy_bucket plainStore "b1" true [⟨[], [recV1]⟩] [["p1"]]).result =
        .error (.uncaught "NameError") ∧
      ∀ c ∈ (destroy_bucket plainStore "b1" true [⟨[], [recV1]⟩] [["p1"]]).calls,
        isPlainDelete c = false) :=
  ⟨⟨rfl, rfl, by decide⟩,
    c10_plain_sweep_nameError plainStore "b1" [⟨[], [recV1]⟩] [["p1"]] plainBucket rfl rfl
      (by decide)⟩

/-- C3: a force=true run on an Enabled bucket whose listing pages carry
exactly its delete markers and data versions (and whose plain catalog is
empty) issues one version-aware delete-object per listed record — the
records consumed are a permutation of the bucket's version set, so each
(key, versionId) record is consumed exactly once — for a total of N+M
version-delete calls (N data versions plus M delete markers), and the
bucket-delete request appears in the trace only after all of them. -/
theorem c3_purge_counts_and_order (st : Store) (n : String) (pages : List VersionPage)
    (pp : List (List String)) (b : Bucket)
    (hf : st.find n = some b) (hmode : b.versioning = .Enabled)
    (h1 : (pages.map VersionPage.deleteMarkers).flatten = b.versions.filter fun r => r.isDeleteMarker)
    (h2 : (pages.map VersionPage.versions).flatten = b.versions.filter fun r => !r.isDeleteMarker)
    (hplain : b.plainObjects = []) (hppz : ∀ pg ∈ pp, pg = []) :
    (destroy_bucket st n true pages pp).calls =
      [StoreCall.listBuckets n, StoreCall.getBucketVersioning n,
        StoreCall.putBucketVersioning n "Suspended", StoreCall.getBucketVersioning n]
      ++ purge_version_pages_calls n pages
      ++ List.replicate pp.length (StoreCall.listObjectsV2 n)
      ++ [StoreCall.deleteBucket n, StoreCall.waitBucketNotExists n] ∧
    ((destroy_bucket st n true pages pp).calls.filter isVersionDelete) =
      (purgeRecords pages).map (fun r => StoreCall.deleteObject n r.key (some r.versionId)) ∧
    List.Perm (purgeRecords pages) b.versions ∧
    ((destroy_bucket st n true pages pp).calls.filter isVersionDelete).length =
      (b.versions.filter fun r => !r.isDeleteMarker).length +
        (b.versions.filter fun r => r.isDeleteMarker).length := by
  have hperm : List.Perm (purgeRecords pages) b.versions :=
    purgeRecords_perm pages b.versions h1 h2
  have hdrop : dropRecords b.versions (purgeRecords pages) = [] :=
    dropRecords_eq_nil _ _ fun r hr => hperm.mem_iff.mpr hr
  have hrun := destroy_force_enabled_run st n pages pp b hf hmode hppz
  have hfind2 := find_after_purge st n pages b hf
  rw [hdrop, hplain] at hfind2
  have hstep := delete_bucket_step_empty (applyPurge (st.setVersioning n "Suspended") n pages) n
    ((([StoreCall.listBuckets n, StoreCall.getBucketVersioning n,
        StoreCall.putBucketVersioning n "Suspended"]
      ++ [StoreCall.getBucketVersioning n]) ++ purge_version_pages_calls n pages)
      ++ List.replicate pp.length (StoreCall.listObjectsV2 n))
    ⟨.Suspended, [], []⟩ hfind2 rfl rfl
  have hcalls : (destroy_bucket st n true pages pp).calls =
      [StoreCall.listBuckets n, StoreCall.getBucketVersioning n,
        StoreCall.putBucketVersioning n "Suspended", StoreCall.getBucketVersioning n]
      ++ purge_version_pages_calls n pages
      ++ List.replicate pp.length (StoreCall.listObjectsV2 n)
      ++ [StoreCall.deleteBucket n, StoreCall.waitBucketNotExists n] := by
    rw [hrun, hstep]
    simp [List.append_assoc]
  have hfilter : ((destroy_bucket st n true pages pp).calls.filter isVersionDelete) =
      (purgeRecords pages).map fun r => StoreCall.deleteObject n r.key (some r.versionId) := by
    rw [hcalls]
    simp [List.filter_append, List.filter_cons, filter_versionDelete_purge_calls,
      filter_versionDelete_replicate, isVersionDelete_listBuckets,
      isVersionDelete_getBucketVersioning, isVersionDelete_putBucketVersioning,
      isVersionDelete_deleteBucket, isVersionDelete_waitBucketNotExists]
  refine ⟨hcalls, hfilter, hperm, ?_⟩
  rw [hfilter, List.length_map]
  have hlen : (purgeRecords pages).length = b.versions.length := hperm.length_eq
  have hsplit := (List.filter_append_perm (fun r => r.isDeleteMarker) b.versions).length_eq
  rw [List.length_append] at hsplit
  omega

/-- C3 witness: the demo bucket (one data version, one marker, one page). -/
theorem c3_purge_counts_and_order_witness :
    (demoStore.find "b1" = some demoBucket ∧ demoBucket.versioning = .Enabled ∧
      (demoPages.map VersionPage.deleteMarkers).flatten =
        demoBucket.versions.filter (fun r => r.isDeleteMarker) ∧
      (demoPages.map VersionPage.versions).flatten =
        demoBucket.versions.filter (fun r => !r.isDeleteMarker) ∧
      demoBucket.plainObjects = [] ∧ (∀ pg ∈ [([] : List String)], pg = [])) ∧
    ((destroy_bucket demoStore "b1" true demoPages [[]]).calls =
      [StoreCall.listBuckets "b1", StoreCall.getBucketVersioning "b1",
        StoreCall.putBucketVersioning "b1" "Suspended", StoreCall.getBucketVersioning "b1"]
      ++ purge_version_pages_calls "b1" demoPages
      ++ List.replicate (List.length [([] : List String)]) (StoreCall.listObjectsV2 "b1")
      ++ [StoreCall.deleteBucket "b1", StoreCall.waitBucketNotExists "b1"] ∧
    ((destroy_bucket demoStore "b1" true demoPages [[]]).calls.filter isVersionDelete) =
      (purgeRecords demoPages).map
        (fun r => StoreCall.deleteObject "b1" r.key (some r.versionId)) ∧
    List.Perm (purgeRecords demoPages) demoBucket.versions ∧
    ((destroy_bucket demoStore "b1" true demoPages [[]]).calls.filter isVersionDelete).length =
      (demoBucket.versions.filter fun r => !r.isDeleteMarker).length +
        (demoBucket.versions.filter fun r => r.isDeleteMarker).length) :=
  ⟨⟨rfl, rfl, by decide, by decide, rfl, by decide⟩,
    c3_purge_counts_and_order demoStore "b1" demoPages [[]] demoBucket rfl rfl
      (by decide) (by decide) rfl (by decide)⟩

end S3VersionedBucket
